import Mathlib

/-!
Verification of the video segment timeline editor of the BlueprintAI frontend.

The definitions below are a shallow embedding of the segment-editing code in
  src/frontend/src/components/video/MultiSegmentSelector.tsx
  src/frontend/src/components/video/VideoSegmentSelector.tsx
  src/frontend/src/app/(dashboard)/videos/[videoId]/page.tsx
Times (seconds) are modelled as rationals; JS number arithmetic on these
values is plain field arithmetic in every code path under study.
-/

/-- A segment of the video timeline, MultiSegmentSelector.tsx lines 9-15. -/
structure VideoSegment where
  id : String
  startTime : ℚ
  endTime : ℚ
  label : String
  color : String
deriving DecidableEq, Repr

/-- The fixed 8-color palette, MultiSegmentSelector.tsx lines 26-35
(duplicated in page.tsx lines 79-82). -/
def SEGMENT_COLORS : List String :=
  ["#3B82F6", "#10B981", "#F59E0B", "#EF4444", "#8B5CF6", "#EC4899", "#06B6D4", "#84CC16"]

/-- getNextColor, MultiSegmentSelector.tsx lines 37-41: the first palette color
not in usedColors if any, otherwise the palette entry at index
usedColors.length mod palette length (the JS index is always in bounds, so the
getD default is never reached). -/
def getNextColor (usedColors : List String) : String :=
  match SEGMENT_COLORS.filter (fun c => !(usedColors.contains c)) with
  | a :: _ => a
  | [] => SEGMENT_COLORS.getD (usedColors.length % SEGMENT_COLORS.length) ""

/-- getPositionFromEvent, MultiSegmentSelector.tsx lines 125-130 and
VideoSegmentSelector.tsx lines 117-122: clamp the pointer offset to the
timeline width and rescale to seconds.  Arguments are the timeline rectangle
(left edge, width), the pointer clientX and the video duration. -/
def getPositionFromEvent (rectLeft rectWidth clientX duration : ℚ) : ℚ :=
  (max 0 (min rectWidth (clientX - rectLeft)) / rectWidth) * duration

/-- Which handle of a segment is being dragged (the 'start' | 'end' union in
MultiSegmentSelector.tsx line 59). -/
inductive DragHandle
  | startHandle
  | endHandle
deriving DecidableEq, Repr

/-- The in-memory editor state of MultiSegmentSelector: the segment list, the
selected segment id (line 62) and the playhead time (line 58).  currentTime is
only ever written from the media element or through seekTo, both of which keep
it inside the bounds of the video. -/
structure MultiState where
  segments : List VideoSegment
  selectedSegmentId : Option String
  currentTime : ℚ
deriving DecidableEq, Repr

/-- addSegment, MultiSegmentSelector.tsx lines 133-144.  The random id from
generateId is passed in as newId. -/
def addSegment (duration : ℚ) (newId : String) (st : MultiState) : MultiState :=
  let usedColors := st.segments.map (fun s => s.color)
  let newSegment : VideoSegment :=
    { id := newId
      startTime := max 0 (st.currentTime - 5)
      endTime := min duration (st.currentTime + 5)
      label := "Segment " ++ toString (st.segments.length + 1)
      color := getNextColor usedColors }
  { st with
      segments := st.segments ++ [newSegment]
      selectedSegmentId := some newId }

/-- removeSegment, MultiSegmentSelector.tsx lines 147-152. -/
def removeSegment (id : String) (st : MultiState) : MultiState :=
  { st with
      segments := st.segments.filter (fun s => !(s.id == id))
      selectedSegmentId :=
        if st.selectedSegmentId == some id then none else st.selectedSegmentId }

/-- saveLabel, MultiSegmentSelector.tsx lines 161-167.  In JS, segments.indexOf(s)
compares by object reference, so inside the map it is the position of s itself;
mapIdx makes that index explicit.  The JS expression (v || default) falls back
exactly when v is the empty string. -/
def saveLabel (id editingLabelValue : String) (segments : List VideoSegment) :
    List VideoSegment :=
  segments.mapIdx (fun index s =>
    if s.id == id then
      { s with label :=
          if editingLabelValue == "" then "Segment " ++ toString (index + 1)
          else editingLabelValue }
    else s)

/-- setSegmentStart, MultiSegmentSelector.tsx lines 176-183. -/
def setSegmentStart (id : String) (st : MultiState) : MultiState :=
  match st.segments.find? (fun s => s.id == id) with
  | none => st
  | some segment =>
    let newStart := min st.currentTime (segment.endTime - 1)
    { st with segments :=
        st.segments.map (fun s => if s.id == id then { s with startTime := newStart } else s) }

/-- setSegmentEnd, MultiSegmentSelector.tsx lines 185-192. -/
def setSegmentEnd (id : String) (st : MultiState) : MultiState :=
  match st.segments.find? (fun s => s.id == id) with
  | none => st
  | some segment =>
    let newEnd := max st.currentTime (segment.startTime + 1)
    { st with segments :=
        st.segments.map (fun s => if s.id == id then { s with endTime := newEnd } else s) }

/-- The segment branch of handleMouseMove, MultiSegmentSelector.tsx lines
216-240, for a drag of one handle of segment segmentId with the already
computed pointer time (the playhead branch only seeks and does not touch the
list). -/
def handleMouseMove (duration : ℚ) (segmentId : String) (handle : DragHandle)
    (time : ℚ) (segments : List VideoSegment) : List VideoSegment :=
  match segments.find? (fun s => s.id == segmentId) with
  | none => segments
  | some segment =>
    match handle with
    | DragHandle.startHandle =>
      let newStart := min time (segment.endTime - 1)
      segments.map (fun s =>
        if s.id == segmentId then { s with startTime := max 0 newStart } else s)
    | DragHandle.endHandle =>
      let newEnd := max time (segment.startTime + 1)
      segments.map (fun s =>
        if s.id == segmentId then { s with endTime := min duration newEnd } else s)

/-- A segment-updating user action of MultiSegmentSelector.  Drag moves carry
the pointer time computed by getPositionFromEvent; the three playhead based
actions carry the playhead time current at that moment (the user seeks or the
video plays between actions, so each action sees its own playhead value). -/
inductive SegOp
  | dragMove (segmentId : String) (handle : DragHandle) (time : ℚ)
  | setStartOp (segmentId : String) (playhead : ℚ)
  | setEndOp (segmentId : String) (playhead : ℚ)
  | addOp (newId : String) (playhead : ℚ)

/-- Apply one action to the editor state, dispatching to the embedded handlers. -/
def applyOp (duration : ℚ) (st : MultiState) : SegOp → MultiState
  | SegOp.dragMove segmentId handle time =>
      { st with segments := handleMouseMove duration segmentId handle time st.segments }
  | SegOp.setStartOp id p => setSegmentStart id { st with currentTime := p }
  | SegOp.setEndOp id p => setSegmentEnd id { st with currentTime := p }
  | SegOp.addOp newId p => addSegment duration newId { st with currentTime := p }

/-- The time carried by an action lies inside the video: getPositionFromEvent
clamps drag times to the interval from 0 to duration, and the playhead is only
written by the clamping seekTo or by the media element. -/
def opValid (duration : ℚ) : SegOp → Prop
  | SegOp.dragMove _ _ t => 0 ≤ t ∧ t ≤ duration
  | SegOp.setStartOp _ p => 0 ≤ p ∧ p ≤ duration
  | SegOp.setEndOp _ p => 0 ≤ p ∧ p ≤ duration
  | SegOp.addOp _ p => 0 ≤ p ∧ p ≤ duration

/-- An added segment gets a fresh random id (generateId); the other actions
have no freshness requirement. -/
def opFresh (st : MultiState) : SegOp → Prop
  | SegOp.addOp newId _ => newId ∉ st.segments.map (fun s => s.id)
  | _ => True

/-- States reachable from an initial editor state by sequences of valid
segment-updating actions. -/
inductive Reachable (duration : ℚ) : MultiState → MultiState → Prop
  | refl (st : MultiState) : Reachable duration st st
  | step {st st' : MultiState} {op : SegOp} :
      Reachable duration st st' → opValid duration op → opFresh st' op →
      Reachable duration st (applyOp duration st' op)

/-- The timeline invariant of the spec: every segment lies inside the video,
runs forward, and is at least one second long. -/
def SegInvariant (duration : ℚ) (segments : List VideoSegment) : Prop :=
  ∀ s ∈ segments, 0 ≤ s.startTime ∧ s.startTime < s.endTime ∧
    s.endTime ≤ duration ∧ 1 ≤ s.endTime - s.startTime

instance (duration : ℚ) (segments : List VideoSegment) :
    Decidable (SegInvariant duration segments) :=
  List.decidableBAll _ segments

/-- Playback state of the single-segment selector: the media element position
and the playing flag (VideoSegmentSelector.tsx lines 26-27). -/
structure PlayerState where
  currentTime : ℚ
  isPlaying : Bool
deriving DecidableEq, Repr

/-- handleTimeUpdate, VideoSegmentSelector.tsx lines 56-63: a timeupdate
reporting position t records it, and in segment mode a position at or past
endTime sends the media element back to startTime.  The playing flag is not
touched. -/
def handleTimeUpdate (useSegment : Bool) (startTime endTime t : ℚ)
    (st : PlayerState) : PlayerState :=
  if useSegment && decide (endTime ≤ t) then
    { st with currentTime := startTime }
  else
    { st with currentTime := t }

/-- One entry of the save payload built in handleSaveSegments, page.tsx lines
167-172. -/
structure SegmentPayload where
  start_time : ℚ
  end_time : ℚ
  label : String
  color : String
deriving DecidableEq, Repr

/-- One entry of response.data.segments as typed in page.tsx lines 50-56 (the
backend response carries no color field). -/
structure ServerSegment where
  id : String
  start_time : ℚ
  end_time : ℚ
  title : Option String
deriving DecidableEq, Repr

/-- The serialization in handleSaveSegments, page.tsx lines 167-172. -/
def handleSaveSegments (segments : List VideoSegment) : List SegmentPayload :=
  segments.map (fun s =>
    { start_time := s.startTime
      end_time := s.endTime
      label := s.label
      color := s.color })

/-- The reconstruction in loadVideo, page.tsx lines 132-138: ids come from the
server, the JS fallback (seg.title || default) fires on null and on the empty
string, and the color is recomputed positionally from the palette, ignoring
whatever color was saved. -/
def loadSegments (serverSegments : List ServerSegment) : List VideoSegment :=
  serverSegments.mapIdx (fun index seg =>
    { id := seg.id
      startTime := seg.start_time
      endTime := seg.end_time
      label :=
        match seg.title with
        | some t => if t == "" then "Segment " ++ toString (index + 1) else t
        | none => "Segment " ++ toString (index + 1)
      color := SEGMENT_COLORS.getD (index % SEGMENT_COLORS.length) "" })

/-- Modelled from the spec: the backend that receives the save payload is not
in this file set.  Per spec section 6 the save callback sends the segment list
as start and end time, label and color tuples and the backend strips the
client ids and regenerates its own; the stored label comes back as the title
field of the response schema above.  newIds gives the server assigned id for
each position. -/
def backendRoundTrip (newIds : ℕ → String) (payload : List SegmentPayload) :
    List ServerSegment :=
  payload.mapIdx (fun index p =>
    { id := newIds index
      start_time := p.start_time
      end_time := p.end_time
      title := some p.label })

/-! Helper lemmas shared by several theorems below. -/

theorem find?_id_mem {segments : List VideoSegment} {id : String} {segment : VideoSegment}
    (h : segments.find? (fun s => s.id == id) = some segment) :
    segment ∈ segments ∧ segment.id = id := by
  refine ⟨List.mem_of_find?_eq_some h, ?_⟩
  have h2 := List.find?_some h
  simpa using h2

theorem eq_of_nodup_id {segments : List VideoSegment}
    (hnd : (segments.map (fun s => s.id)).Nodup)
    {a b : VideoSegment} (ha : a ∈ segments) (hb : b ∈ segments)
    (hab : a.id = b.id) : a = b :=
  List.inj_on_of_nodup_map hnd ha hb hab

theorem map_update_ids (segments : List VideoSegment) (id : String)
    (f : VideoSegment → VideoSegment) (hf : ∀ s, (f s).id = s.id) :
    ((segments.map (fun s => if s.id == id then f s else s)).map (fun s => s.id))
      = segments.map (fun s => s.id) := by
  rw [List.map_map]
  congr 1
  funext s
  by_cases h : s.id = id <;> simp [h, hf]

theorem mapIdx_getElem? {α β : Type} (f : ℕ → α → β) (l : List α) (i : ℕ) :
    (l.mapIdx f)[i]? = Option.map (f i) l[i]? := by
  by_cases h : i < l.length
  · rw [List.getElem?_eq_getElem (by simpa using h), List.getElem?_eq_getElem h]
    simp [← List.get_eq_getElem, List.get_mapIdx]
  · rw [List.getElem?_eq_none (by simpa using Nat.le_of_not_lt h),
      List.getElem?_eq_none (Nat.le_of_not_lt h)]
    rfl

/-- C4: for every pointer x-coordinate, including positions left of or right
of the timeline element, the computed time equals the clamped x offset divided
by the timeline width times the duration, and lies between 0 and duration:
out-of-bounds pointer positions clamp to the nearest timeline edge rather
than extrapolating (preconditions: positive timeline width, and the duration
of a video is nonnegative). -/
theorem getPositionFromEvent_clamped (rectLeft rectWidth clientX duration : ℚ)
    (hw : 0 < rectWidth) (hd : 0 ≤ duration) :
    getPositionFromEvent rectLeft rectWidth clientX duration
        = max 0 (min rectWidth (clientX - rectLeft)) / rectWidth * duration
      ∧ 0 ≤ getPositionFromEvent rectLeft rectWidth clientX duration
      ∧ getPositionFromEvent rectLeft rectWidth clientX duration ≤ duration := by
  refine ⟨rfl, ?_, ?_⟩
  · exact mul_nonneg (div_nonneg (le_max_left _ _) hw.le) hd
  · have hx : max 0 (min rectWidth (clientX - rectLeft)) ≤ rectWidth :=
      max_le hw.le (min_le_left _ _)
    have h1 : max 0 (min rectWidth (clientX - rectLeft)) / rectWidth ≤ 1 :=
      (div_le_one hw).mpr hx
    calc getPositionFromEvent rectLeft rectWidth clientX duration
        ≤ 1 * duration := mul_le_mul_of_nonneg_right h1 hd
      _ = duration := one_mul _

/-- Witness for C4 at a pointer 60 pixels left of a 100 pixel timeline over a
60 second video: the computed time is clamped to the left edge. -/
theorem getPositionFromEvent_clamped_witness :
    (0 : ℚ) < 100 ∧ (0 : ℚ) ≤ 60 ∧
      (getPositionFromEvent 10 100 (-50) 60
          = max 0 (min 100 ((-50) - 10)) / 100 * 60
        ∧ 0 ≤ getPositionFromEvent 10 100 (-50) 60
        ∧ getPositionFromEvent 10 100 (-50) 60 ≤ 60) :=
  ⟨by norm_num, by norm_num,
    getPositionFromEvent_clamped 10 100 (-50) 60 (by norm_num) (by norm_num)⟩

/-- C5: adding a segment at playhead p appends a segment from max 0 (p - 5) to
min duration (p + 5), labelled with the running count, colored by
getNextColor, and selects it; concretely with duration 120 and playhead 0 the
new segment runs from 0 to 5, not from -5 to 5. -/
theorem addSegment_appends (duration : ℚ) (newId : String) (st : MultiState) :
    (addSegment duration newId st).segments
        = st.segments ++
          [{ id := newId
             startTime := max 0 (st.currentTime - 5)
             endTime := min duration (st.currentTime + 5)
             label := "Segment " ++ toString (st.segments.length + 1)
             color := getNextColor (st.segments.map (fun s => s.color)) }]
      ∧ (addSegment duration newId st).selectedSegmentId = some newId
      ∧ (addSegment 120 "n1"
            { segments := [], selectedSegmentId := none, currentTime := 0 }).segments
          = [{ id := "n1", startTime := 0, endTime := 5,
               label := "Segment 1", color := "#3B82F6" }] :=
  ⟨rfl, rfl, by
    simp only [addSegment, getNextColor, SEGMENT_COLORS]
    norm_num
    rfl⟩

/-- C6: getNextColor always returns a member of the fixed 8-color palette:
the first palette color not already in use when one exists, and otherwise the
palette entry at index (number of used colors) mod 8; it is total, with no
undefined result even when all 8 colors are in use. -/
theorem getNextColor_total (usedColors : List String) :
    getNextColor usedColors ∈ SEGMENT_COLORS
      ∧ (∀ c rest,
          SEGMENT_COLORS.filter (fun c => !(usedColors.contains c)) = c :: rest →
          getNextColor usedColors = c)
      ∧ (SEGMENT_COLORS.filter (fun c => !(usedColors.contains c)) = [] →
          getNextColor usedColors
            = SEGMENT_COLORS.getD (usedColors.length % SEGMENT_COLORS.length) "") := by
  refine ⟨?_, ?_, ?_⟩
  · cases hav : SEGMENT_COLORS.filter (fun c => !(usedColors.contains c)) with
    | cons a rest =>
      have heq : getNextColor usedColors = a := by
        unfold getNextColor
        rw [hav]
      rw [heq]
      exact List.mem_of_mem_filter (hav ▸ List.mem_cons_self a rest)
    | nil =>
      have heq : getNextColor usedColors
          = SEGMENT_COLORS.getD (usedColors.length % SEGMENT_COLORS.length) "" := by
        unfold getNextColor
        rw [hav]
      have hlt : usedColors.length % SEGMENT_COLORS.length < SEGMENT_COLORS.length :=
        Nat.mod_lt _ (by decide)
      rw [heq, List.getD_eq_getElem?_getD, List.getElem?_eq_getElem hlt,
        Option.getD_some]
      exact List.getElem_mem _
  · intro c rest hav
    unfold getNextColor
    rw [hav]
  · intro hav
    unfold getNextColor
    rw [hav]

/-- Witness for C6 with all 8 palette colors already in use: the filter of
unused colors is empty and getNextColor still returns a palette member, the
cyclic entry at index 8 mod 8 = 0. -/
theorem getNextColor_total_witness :
    SEGMENT_COLORS.filter (fun c => !(SEGMENT_COLORS.contains c)) = []
      ∧ getNextColor SEGMENT_COLORS
          = SEGMENT_COLORS.getD (SEGMENT_COLORS.length % SEGMENT_COLORS.length) ""
      ∧ getNextColor SEGMENT_COLORS ∈ SEGMENT_COLORS :=
  ⟨by decide, (getNextColor_total SEGMENT_COLORS).2.2 (by decide),
    (getNextColor_total SEGMENT_COLORS).1⟩

/-- C7: removeSegment removes exactly the segments with the given id, is a
silent no-op on the list when no segment has that id, clears the selection
when the removed id was selected, and leaves the selection unchanged
otherwise. -/
theorem removeSegment_spec (id : String) (st : MultiState) :
    (∀ s, s ∈ (removeSegment id st).segments ↔ s ∈ st.segments ∧ s.id ≠ id)
      ∧ ((∀ s ∈ st.segments, s.id ≠ id) →
          (removeSegment id st).segments = st.segments)
      ∧ (st.selectedSegmentId = some id →
          (removeSegment id st).selectedSegmentId = none)
      ∧ (st.selectedSegmentId ≠ some id →
          (removeSegment id st).selectedSegmentId = st.selectedSegmentId) := by
  refine ⟨?_, ?_, ?_, ?_⟩
  · intro s
    simp [removeSegment, List.mem_filter]
  · intro h
    simp only [removeSegment]
    rw [List.filter_eq_self.mpr]
    intro s hs
    simpa using h s hs
  · intro h
    simp [removeSegment, h]
  · intro h
    simp [removeSegment, h]

/-- Witness for C7 on a one-segment list with the segment selected: removing
an absent id changes neither the list nor the selection, and removing the
selected id clears the selection. -/
theorem removeSegment_spec_witness :
    (removeSegment "b"
        { segments := [{ id := "a", startTime := 0, endTime := 2,
                         label := "Segment 1", color := "#3B82F6" }],
          selectedSegmentId := some "a", currentTime := 0 }).segments
      = [{ id := "a", startTime := 0, endTime := 2,
           label := "Segment 1", color := "#3B82F6" }]
    ∧ (removeSegment "b"
        { segments := [{ id := "a", startTime := 0, endTime := 2,
                         label := "Segment 1", color := "#3B82F6" }],
          selectedSegmentId := some "a", currentTime := 0 }).selectedSegmentId
      = some "a"
    ∧ (removeSegment "a"
        { segments := [{ id := "a", startTime := 0, endTime := 2,
                         label := "Segment 1", color := "#3B82F6" }],
          selectedSegmentId := some "a", currentTime := 0 }).selectedSegmentId
      = none :=
  ⟨(removeSegment_spec "b" _).2.1 (by decide),
    ((removeSegment_spec "b" _).2.2.2 (by decide)).trans rfl,
    (removeSegment_spec "a" _).2.2.1 rfl⟩

/-- C8: saving a label for the segment at position i whose id matches stores
the text unchanged when it is nonempty, and falls back to the positional
default Segment (i+1) when it is the empty string. -/
theorem saveLabel_spec (id v : String) (segments : List VideoSegment)
    (i : ℕ) (s0 : VideoSegment) (hi : segments[i]? = some s0) (hid : s0.id = id) :
    (saveLabel id v segments)[i]?
      = some { s0 with label :=
          if v = "" then "Segment " ++ toString (i + 1) else v } := by
  unfold saveLabel
  rw [mapIdx_getElem?, hi]
  simp [hid]

/-- Witness for C8 on a one-segment list: the empty string falls back to the
positional default and a nonempty string is stored unchanged. -/
theorem saveLabel_spec_witness :
    (saveLabel "a" ""
        [{ id := "a", startTime := 0, endTime := 2,
           label := "Old", color := "#3B82F6" }])[0]?
      = some { id := "a", startTime := 0, endTime := 2,
               label := "Segment 1", color := "#3B82F6" }
    ∧ (saveLabel "a" "Hello"
        [{ id := "a", startTime := 0, endTime := 2,
           label := "Old", color := "#3B82F6" }])[0]?
      = some { id := "a", startTime := 0, endTime := 2,
               label := "Hello", color := "#3B82F6" } :=
  ⟨(saveLabel_spec "a" "" _ 0 _ rfl rfl).trans (by decide),
    (saveLabel_spec "a" "Hello" _ 0 _ rfl rfl).trans (by decide)⟩

/-- C9: in segment mode, a timeupdate reporting a position at or past endTime
resets the playback position to startTime and leaves the playing flag
unchanged, so the playhead never remains at or past the segment end;
concretely with the segment from 10 to 20 and playback reaching 20, the
position becomes 10 and playback stays playing. -/
theorem handleTimeUpdate_loops (startTime endTime t : ℚ) (st : PlayerState)
    (hle : endTime ≤ t) (hs : startTime < endTime) :
    (handleTimeUpdate true startTime endTime t st).currentTime = startTime
      ∧ (handleTimeUpdate true startTime endTime t st).isPlaying = st.isPlaying
      ∧ (handleTimeUpdate true startTime endTime t st).currentTime < endTime
      ∧ handleTimeUpdate true 10 20 20 { currentTime := 19, isPlaying := true }
          = { currentTime := 10, isPlaying := true } := by
  have hcond : (true && decide (endTime ≤ t)) = true := by simp [hle]
  refine ⟨?_, ?_, ?_, ?_⟩
  · simp [handleTimeUpdate, hcond]
  · simp [handleTimeUpdate, hcond]
  · simpa [handleTimeUpdate, hcond] using hs
  · simp [handleTimeUpdate]

/-- Witness for C9 at the concrete looping scenario of the spec. -/
theorem handleTimeUpdate_loops_witness :
    (20 : ℚ) ≤ 20 ∧ (10 : ℚ) < 20 ∧
      ((handleTimeUpdate true 10 20 20
          { currentTime := 19, isPlaying := true }).currentTime = 10
        ∧ (handleTimeUpdate true 10 20 20
            { currentTime := 19, isPlaying := true }).isPlaying = true
        ∧ (handleTimeUpdate true 10 20 20
            { currentTime := 19, isPlaying := true }).currentTime < 20
        ∧ handleTimeUpdate true 10 20 20 { currentTime := 19, isPlaying := true }
            = { currentTime := 10, isPlaying := true }) :=
  ⟨by norm_num, by norm_num,
    handleTimeUpdate_loops 10 20 20 { currentTime := 19, isPlaying := true }
      (by norm_num) (by norm_num)⟩

/-- C3: a drag move at a pointer time t between 0 and duration sets the start
handle to min t (endTime - 1) floored at 0, and the end handle to
max t (startTime + 1) capped at duration; in particular dragging the end
handle of the segment from 10 to 20 to pointer time 5 yields endTime 11,
not 5. -/
theorem handleMouseMove_formula (duration t : ℚ) (segments : List VideoSegment)
    (i : ℕ) (s : VideoSegment)
    (hnd : (segments.map (fun x => x.id)).Nodup)
    (hi : segments[i]? = some s)
    (h0 : 0 ≤ t) (h1 : t ≤ duration) :
    (handleMouseMove duration s.id DragHandle.startHandle t segments)[i]?
        = some { s with startTime := max 0 (min t (s.endTime - 1)) }
      ∧ (handleMouseMove duration s.id DragHandle.endHandle t segments)[i]?
        = some { s with endTime := min duration (max t (s.startTime + 1)) }
      ∧ handleMouseMove 120 "s1" DragHandle.endHandle 5
          [{ id := "s1", startTime := 10, endTime := 20,
             label := "Segment 1", color := "#3B82F6" }]
        = [{ id := "s1", startTime := 10, endTime := 11,
             label := "Segment 1", color := "#3B82F6" }] := by
  have hmem : s ∈ segments := List.getElem?_mem hi
  have hsome : (segments.find? (fun x => x.id == s.id)).isSome := by
    rw [List.find?_isSome]
    exact ⟨s, hmem, by simp⟩
  obtain ⟨segment, hfind⟩ := Option.isSome_iff_exists.mp hsome
  obtain ⟨hmem2, hid2⟩ := find?_id_mem hfind
  have hseq : segment = s := eq_of_nodup_id hnd hmem2 hmem hid2
  subst hseq
  refine ⟨?_, ?_, ?_⟩
  · unfold handleMouseMove
    rw [hfind]
    show (segments.map _)[i]? = _
    rw [List.getElem?_map, hi]
    simp
  · unfold handleMouseMove
    rw [hfind]
    show (segments.map _)[i]? = _
    rw [List.getElem?_map, hi]
    simp
  · unfold handleMouseMove
    simp only [List.find?]
    norm_num

/-- Witness for C3 with a pointer time of 3 on a 10 second video and a
segment from 2 to 5: the start drag moves the start to 3 and the end drag
clamps the end to startTime + 1 = 3. -/
theorem handleMouseMove_formula_witness :
    (handleMouseMove 10 "a" DragHandle.startHandle 3
        [{ id := "a", startTime := 2, endTime := 5,
           label := "Segment 1", color := "#3B82F6" }])[0]?
      = some { id := "a", startTime := 3, endTime := 5,
               label := "Segment 1", color := "#3B82F6" }
    ∧ (handleMouseMove 10 "a" DragHandle.endHandle 3
        [{ id := "a", startTime := 2, endTime := 5,
           label := "Segment 1", color := "#3B82F6" }])[0]?
      = some { id := "a", startTime := 2, endTime := 3,
               label := "Segment 1", color := "#3B82F6" }
    ∧ handleMouseMove 120 "s1" DragHandle.endHandle 5
        [{ id := "s1", startTime := 10, endTime := 20,
           label := "Segment 1", color := "#3B82F6" }]
      = [{ id := "s1", startTime := 10, endTime := 11,
           label := "Segment 1", color := "#3B82F6" }] :=
  ⟨((handleMouseMove_formula 10 3
      [{ id := "a", startTime := 2, endTime := 5,
         label := "Segment 1", color := "#3B82F6" }] 0
      { id := "a", startTime := 2, endTime := 5,
        label := "Segment 1", color := "#3B82F6" }
      (by decide) rfl (by norm_num) (by norm_num)).1).trans
      (by norm_num [min_def, max_def]),
    ((handleMouseMove_formula 10 3
      [{ id := "a", startTime := 2, endTime := 5,
         label := "Segment 1", color := "#3B82F6" }] 0
      { id := "a", startTime := 2, endTime := 5,
        label := "Segment 1", color := "#3B82F6" }
      (by decide) rfl (by norm_num) (by norm_num)).2.1).trans
      (by norm_num [min_def, max_def]),
    (handleMouseMove_formula 10 3
      [{ id := "a", startTime := 2, endTime := 5,
         label := "Segment 1", color := "#3B82F6" }] 0
      { id := "a", startTime := 2, endTime := 5,
        label := "Segment 1", color := "#3B82F6" }
      (by decide) rfl (by norm_num) (by norm_num)).2.2⟩

/-! Invariant preservation lemmas for C1. -/

theorem handleMouseMove_ids (duration : ℚ) (segmentId : String)
    (handle : DragHandle) (time : ℚ) (segments : List VideoSegment) :
    (handleMouseMove duration segmentId handle time segments).map (fun s => s.id)
      = segments.map (fun s => s.id) := by
  unfold handleMouseMove
  cases segments.find? (fun s => s.id == segmentId) with
  | none => rfl
  | some segment =>
    cases handle with
    | startHandle => exact map_update_ids segments segmentId _ (fun s => rfl)
    | endHandle => exact map_update_ids segments segmentId _ (fun s => rfl)

theorem setSegmentStart_ids (id : String) (st : MultiState) :
    ((setSegmentStart id st).segments).map (fun s => s.id)
      = st.segments.map (fun s => s.id) := by
  unfold setSegmentStart
  cases st.segments.find? (fun s => s.id == id) with
  | none => rfl
  | some segment => exact map_update_ids st.segments id _ (fun s => rfl)

theorem setSegmentEnd_ids (id : String) (st : MultiState) :
    ((setSegmentEnd id st).segments).map (fun s => s.id)
      = st.segments.map (fun s => s.id) := by
  unfold setSegmentEnd
  cases st.segments.find? (fun s => s.id == id) with
  | none => rfl
  | some segment => exact map_update_ids st.segments id _ (fun s => rfl)

theorem segInvariant_map_update (duration : ℚ) (segmentId : String)
    (segments : List VideoSegment) (f : VideoSegment → VideoSegment)
    (hinv : SegInvariant duration segments)
    (hgood : ∀ s ∈ segments, s.id = segmentId →
        0 ≤ (f s).startTime ∧ (f s).startTime < (f s).endTime ∧
        (f s).endTime ≤ duration ∧ 1 ≤ (f s).endTime - (f s).startTime) :
    SegInvariant duration
      (segments.map (fun s => if s.id == segmentId then f s else s)) := by
  intro s' hs'
  simp only [List.mem_map] at hs'
  obtain ⟨s, hs, rfl⟩ := hs'
  by_cases hc : s.id = segmentId
  · rw [if_pos (by simp [hc])]
    exact hgood s hs hc
  · rw [if_neg (by simp [hc])]
    exact hinv s hs

theorem segInvariant_handleMouseMove (duration : ℚ) (segmentId : String)
    (handle : DragHandle) (time : ℚ) (segments : List VideoSegment)
    (hnd : (segments.map (fun s => s.id)).Nodup)
    (h0 : 0 ≤ time) (h1 : time ≤ duration)
    (hinv : SegInvariant duration segments) :
    SegInvariant duration
      (handleMouseMove duration segmentId handle time segments) := by
  unfold handleMouseMove
  cases hfind : segments.find? (fun s => s.id == segmentId) with
  | none => exact hinv
  | some segment =>
    obtain ⟨hmem, hid⟩ := find?_id_mem hfind
    cases handle with
    | startHandle =>
      apply segInvariant_map_update duration segmentId segments
        (fun s => { s with startTime := max 0 (min time (segment.endTime - 1)) }) hinv
      intro s hs hc
      have hseq : s = segment := eq_of_nodup_id hnd hs hmem (hc.trans hid.symm)
      obtain ⟨ha, hb, hc2, hd4⟩ := hinv s hs
      rw [← hseq]
      have hx : min time (s.endTime - 1) ≤ s.endTime - 1 := min_le_right _ _
      have hy : (0 : ℚ) ≤ s.endTime - 1 := by linarith
      have hz : max 0 (min time (s.endTime - 1)) ≤ s.endTime - 1 := max_le hy hx
      exact ⟨le_max_left _ _, by simp <;> linarith, by simpa using hc2, by simp <;> linarith⟩
    | endHandle =>
      apply segInvariant_map_update duration segmentId segments
        (fun s => { s with endTime := min duration (max time (segment.startTime + 1)) }) hinv
      intro s hs hc
      have hseq : s = segment := eq_of_nodup_id hnd hs hmem (hc.trans hid.symm)
      obtain ⟨ha, hb, hc2, hd4⟩ := hinv s hs
      rw [← hseq]
      have hsd : s.startTime + 1 ≤ duration := by linarith
      have hz : s.startTime + 1 ≤ min duration (max time (s.startTime + 1)) :=
        le_min hsd (le_max_right _ _)
      have hw : min duration (max time (s.startTime + 1)) ≤ duration := min_le_left _ _
      exact ⟨by simpa using ha, by simp <;> linarith, by simpa using hw,
        by simp <;> linarith⟩

theorem segInvariant_setSegmentStart (duration : ℚ) (id : String) (st : MultiState)
    (hnd : (st.segments.map (fun s => s.id)).Nodup)
    (h0 : 0 ≤ st.currentTime)
    (hinv : SegInvariant duration st.segments) :
    SegInvariant duration (setSegmentStart id st).segments := by
  unfold setSegmentStart
  cases hfind : st.segments.find? (fun s => s.id == id) with
  | none => exact hinv
  | some segment =>
    obtain ⟨hmem, hid⟩ := find?_id_mem hfind
    apply segInvariant_map_update duration id st.segments
      (fun s => { s with startTime := min st.currentTime (segment.endTime - 1) }) hinv
    intro s hs hc
    have hseq : s = segment := eq_of_nodup_id hnd hs hmem (hc.trans hid.symm)
    obtain ⟨ha, hb, hc2, hd4⟩ := hinv s hs
    rw [← hseq]
    have hy : (0 : ℚ) ≤ s.endTime - 1 := by linarith
    have hx : min st.currentTime (s.endTime - 1) ≤ s.endTime - 1 := min_le_right _ _
    exact ⟨by simpa using le_min h0 hy, by simp <;> linarith, by simpa using hc2,
      by simp <;> linarith⟩

theorem segInvariant_setSegmentEnd (duration : ℚ) (id : String) (st : MultiState)
    (hnd : (st.segments.map (fun s => s.id)).Nodup)
    (h1 : st.currentTime ≤ duration)
    (hinv : SegInvariant duration st.segments) :
    SegInvariant duration (setSegmentEnd id st).segments := by
  unfold setSegmentEnd
  cases hfind : st.segments.find? (fun s => s.id == id) with
  | none => exact hinv
  | some segment =>
    obtain ⟨hmem, hid⟩ := find?_id_mem hfind
    apply segInvariant_map_update duration id st.segments
      (fun s => { s with endTime := max st.currentTime (segment.startTime + 1) }) hinv
    intro s hs hc
    have hseq : s = segment := eq_of_nodup_id hnd hs hmem (hc.trans hid.symm)
    obtain ⟨ha, hb, hc2, hd4⟩ := hinv s hs
    rw [← hseq]
    have hsd : s.startTime + 1 ≤ duration := by linarith
    have hz : s.startTime + 1 ≤ max st.currentTime (s.startTime + 1) := le_max_right _ _
    have hw : max st.currentTime (s.startTime + 1) ≤ duration := max_le h1 hsd
    exact ⟨by simpa using ha, by simp <;> linarith, by simpa using hw, by simp <;> linarith⟩

theorem segInvariant_addSegment (duration : ℚ) (newId : String) (st : MultiState)
    (hd : 1 ≤ duration) (h0 : 0 ≤ st.currentTime) (h1 : st.currentTime ≤ duration)
    (hinv : SegInvariant duration st.segments) :
    SegInvariant duration (addSegment duration newId st).segments := by
  intro s' hs'
  simp only [addSegment, List.mem_append, List.mem_singleton] at hs'
  cases hs' with
  | inl h => exact hinv s' h
  | inr h =>
    subst h
    have key : 1 ≤ min duration (st.currentTime + 5) - max 0 (st.currentTime - 5) := by
      rcases max_choice 0 (st.currentTime - 5) with hmax | hmax <;>
        rcases min_choice duration (st.currentTime + 5) with hmin | hmin <;>
          rw [hmax, hmin] <;> linarith
    refine ⟨le_max_left _ _, ?_, min_le_left _ _, ?_⟩
    · show max 0 (st.currentTime - 5) < min duration (st.currentTime + 5)
      linarith
    · show 1 ≤ min duration (st.currentTime + 5) - max 0 (st.currentTime - 5)
      exact key

theorem applyOp_preserves (duration : ℚ) (st : MultiState) (op : SegOp)
    (hd : 1 ≤ duration) (hv : opValid duration op) (hf : opFresh st op)
    (hnd : (st.segments.map (fun s => s.id)).Nodup)
    (hinv : SegInvariant duration st.segments) :
    ((applyOp duration st op).segments.map (fun s => s.id)).Nodup
      ∧ SegInvariant duration (applyOp duration st op).segments := by
  cases op with
  | dragMove segmentId handle time =>
    obtain ⟨h0, h1⟩ := hv
    refine ⟨?_, ?_⟩
    · show ((handleMouseMove duration segmentId handle time st.segments).map
          (fun s => s.id)).Nodup
      rw [handleMouseMove_ids]
      exact hnd
    · exact segInvariant_handleMouseMove duration segmentId handle time
        st.segments hnd h0 h1 hinv
  | setStartOp id p =>
    obtain ⟨h0, h1⟩ := hv
    refine ⟨?_, ?_⟩
    · show (((setSegmentStart id { st with currentTime := p }).segments).map
          (fun s => s.id)).Nodup
      rw [setSegmentStart_ids]
      exact hnd
    · exact segInvariant_setSegmentStart duration id { st with currentTime := p }
        hnd h0 hinv
  | setEndOp id p =>
    obtain ⟨h0, h1⟩ := hv
    refine ⟨?_, ?_⟩
    · show (((setSegmentEnd id { st with currentTime := p }).segments).map
          (fun s => s.id)).Nodup
      rw [setSegmentEnd_ids]
      exact hnd
    · exact segInvariant_setSegmentEnd duration id { st with currentTime := p }
        hnd h1 hinv
  | addOp newId p =>
    obtain ⟨h0, h1⟩ := hv
    refine ⟨?_, ?_⟩
    · show (((addSegment duration newId { st with currentTime := p }).segments).map
          (fun s => s.id)).Nodup
      have hids : ((addSegment duration newId { st with currentTime := p }).segments).map
          (fun s => s.id) = (st.segments.map (fun s => s.id)) ++ [newId] := by
        simp [addSegment]
      rw [hids, List.nodup_append]
      refine ⟨hnd, List.nodup_singleton _, ?_⟩
      intro a ha hb
      simp only [List.mem_singleton] at hb
      subst hb
      exact hf ha
    · exact segInvariant_addSegment duration newId { st with currentTime := p }
        hd h0 h1 hinv

/-- C1: for every sequence of valid segment-updating operations (drag move on
a start or end handle, set start to current, set end to current, add segment)
starting from segments with pairwise distinct ids that satisfy the timeline
invariant, every segment of every reachable state satisfies
0 ≤ startTime < endTime ≤ duration with endTime - startTime at least 1,
provided duration is at least 1. -/
theorem multiSegment_invariant (duration : ℚ) (init final : MultiState)
    (hreach : Reachable duration init final) (hd : 1 ≤ duration)
    (hnd : (init.segments.map (fun s => s.id)).Nodup)
    (hinv : SegInvariant duration init.segments) :
    SegInvariant duration final.segments := by
  have main : ((final.segments.map (fun s => s.id)).Nodup)
      ∧ SegInvariant duration final.segments := by
    induction hreach with
    | refl => exact ⟨hnd, hinv⟩
    | step h hv hf ih => exact applyOp_preserves duration _ _ hd hv hf ih.1 ih.2
  exact main.2

/-- Witness for C1: one add-segment action at playhead 0 on a 10 second video
starting from a single valid segment keeps the invariant. -/
theorem multiSegment_invariant_witness :
    SegInvariant 10
      (applyOp 10
        { segments := [{ id := "a", startTime := 0, endTime := 2,
                         label := "Segment 1", color := "#3B82F6" }],
          selectedSegmentId := none, currentTime := 0 }
        (SegOp.addOp "b" 0)).segments :=
  multiSegment_invariant 10 _ _
    (Reachable.step (Reachable.refl _) (⟨by norm_num, by norm_num⟩)
      (by simp [opFresh]))
    (by norm_num) (by decide)
    (by
      intro s hs
      simp only [List.mem_singleton] at hs
      subst hs
      refine ⟨by norm_num, by norm_num, by norm_num, by norm_num⟩)

/-- C10: every per-segment operation of the multi-segment editor (drag move
of a handle, set start to current, set end to current, relabel) preserves the
length and order of the segment list and leaves every segment whose id
differs from the target unchanged; a drag move whose target id is not in the
list leaves the list entirely unchanged. -/
theorem perSegmentOps_frame (duration t : ℚ) (id v : String)
    (handle : DragHandle) (st : MultiState) :
    ((handleMouseMove duration id handle t st.segments).length
        = st.segments.length
      ∧ ((setSegmentStart id st).segments).length = st.segments.length
      ∧ ((setSegmentEnd id st).segments).length = st.segments.length
      ∧ (saveLabel id v st.segments).length = st.segments.length)
    ∧ (∀ (i : ℕ) (s0 : VideoSegment), st.segments[i]? = some s0 → s0.id ≠ id →
        (handleMouseMove duration id handle t st.segments)[i]? = some s0
        ∧ ((setSegmentStart id st).segments)[i]? = some s0
        ∧ ((setSegmentEnd id st).segments)[i]? = some s0
        ∧ (saveLabel id v st.segments)[i]? = some s0)
    ∧ (id ∉ st.segments.map (fun s => s.id) →
        handleMouseMove duration id handle t st.segments = st.segments) := by
  refine ⟨⟨?_, ?_, ?_, ?_⟩, ?_, ?_⟩
  · unfold handleMouseMove
    cases st.segments.find? (fun s => s.id == id) with
    | none => rfl
    | some segment => cases handle <;> simp
  · unfold setSegmentStart
    cases st.segments.find? (fun s => s.id == id) with
    | none => rfl
    | some segment => simp
  · unfold setSegmentEnd
    cases st.segments.find? (fun s => s.id == id) with
    | none => rfl
    | some segment => simp
  · simp [saveLabel]
  · intro i s0 hi hne
    refine ⟨?_, ?_, ?_, ?_⟩
    · unfold handleMouseMove
      cases st.segments.find? (fun s => s.id == id) with
      | none => exact hi
      | some segment =>
        cases handle with
        | startHandle =>
          show (st.segments.map _)[i]? = some s0
          rw [List.getElem?_map, hi]
          simp [hne]
        | endHandle =>
          show (st.segments.map _)[i]? = some s0
          rw [List.getElem?_map, hi]
          simp [hne]
    · unfold setSegmentStart
      cases st.segments.find? (fun s => s.id == id) with
      | none => exact hi
      | some segment =>
        show (st.segments.map _)[i]? = some s0
        rw [List.getElem?_map, hi]
        simp [hne]
    · unfold setSegmentEnd
      cases st.segments.find? (fun s => s.id == id) with
      | none => exact hi
      | some segment =>
        show (st.segments.map _)[i]? = some s0
        rw [List.getElem?_map, hi]
        simp [hne]
    · unfold saveLabel
      rw [mapIdx_getElem?, hi]
      simp [hne]
  · intro hid
    have hnone : st.segments.find? (fun s => s.id == id) = none := by
      rw [List.find?_eq_none]
      intro a ha
      simp only [beq_iff_eq]
      intro h
      exact hid (h ▸ List.mem_map_of_mem _ ha)
    unfold handleMouseMove
    rw [hnone]

/-- Witness for C10 on a two-segment list: relabelling segment b leaves
segment a in place unchanged, and a drag move with an id not in the list is
the identity. -/
theorem perSegmentOps_frame_witness :
    ({ segments := [{ id := "a", startTime := 0, endTime := 2,
                      label := "A", color := "#3B82F6" },
                    { id := "b", startTime := 3, endTime := 5,
                      label := "B", color := "#10B981" }],
       selectedSegmentId := none, currentTime := 0 } : MultiState).segments[0]?
        = some { id := "a", startTime := 0, endTime := 2,
                 label := "A", color := "#3B82F6" }
      ∧ (saveLabel "b" "New"
          ({ segments := [{ id := "a", startTime := 0, endTime := 2,
                            label := "A", color := "#3B82F6" },
                          { id := "b", startTime := 3, endTime := 5,
                            label := "B", color := "#10B981" }],
             selectedSegmentId := none, currentTime := 0 } : MultiState).segments)[0]?
        = some { id := "a", startTime := 0, endTime := 2,
                 label := "A", color := "#3B82F6" }
      ∧ handleMouseMove 10 "zz" DragHandle.startHandle 3
          ({ segments := [{ id := "a", startTime := 0, endTime := 2,
                            label := "A", color := "#3B82F6" },
                          { id := "b", startTime := 3, endTime := 5,
                            label := "B", color := "#10B981" }],
             selectedSegmentId := none, currentTime := 0 } : MultiState).segments
        = ({ segments := [{ id := "a", startTime := 0, endTime := 2,
                            label := "A", color := "#3B82F6" },
                          { id := "b", startTime := 3, endTime := 5,
                            label := "B", color := "#10B981" }],
             selectedSegmentId := none, currentTime := 0 } : MultiState).segments :=
  ⟨rfl,
    ((perSegmentOps_frame 10 3 "b" "New" DragHandle.startHandle
        { segments := [{ id := "a", startTime := 0, endTime := 2,
                         label := "A", color := "#3B82F6" },
                       { id := "b", startTime := 3, endTime := 5,
                         label := "B", color := "#10B981" }],
          selectedSegmentId := none, currentTime := 0 }).2.1 0
      { id := "a", startTime := 0, endTime := 2,
        label := "A", color := "#3B82F6" } rfl (by decide)).2.2.2,
    (perSegmentOps_frame 10 3 "zz" "New" DragHandle.startHandle
        { segments := [{ id := "a", startTime := 0, endTime := 2,
                         label := "A", color := "#3B82F6" },
                       { id := "b", startTime := 3, endTime := 5,
                         label := "B", color := "#10B981" }],
          selectedSegmentId := none, currentTime := 0 }).2.2 (by decide)⟩

/-- Counterexample to C2 as stated: saving the single segment with color
"#10B981" (the second palette color) and reconstructing from the payload does
not preserve the color, because loadVideo assigns colors positionally from
the palette: the reloaded segment gets "#3B82F6".  Value equality ignoring id
means equality of the (startTime, endTime, label, color) projections. -/
theorem roundTrip_color_counterexample :
    ¬ ((loadSegments (backendRoundTrip (fun _ => "srv0")
          (handleSaveSegments
            [{ id := "a", startTime := 0, endTime := 5,
               label := "A", color := "#10B981" }]))).map
        (fun s => (s.startTime, s.endTime, s.label, s.color))
      = ([{ id := "a", startTime := 0, endTime := 5,
            label := "A", color := "#10B981" }] : List VideoSegment).map
          (fun s => (s.startTime, s.endTime, s.label, s.color))) := by
  decide

/-- C2 amended: the save and reload round trip preserves length, order, start
and end times, and labels (an empty saved label comes back as the positional
default), but the color of the reloaded segment at position i is the palette
entry at index i mod 8, regardless of the color that was saved. -/
theorem roundTrip_amended (newIds : ℕ → String) (original : List VideoSegment) :
    (loadSegments (backendRoundTrip newIds (handleSaveSegments original))).length
        = original.length
      ∧ (∀ (i : ℕ) (s0 : VideoSegment), original[i]? = some s0 →
          (loadSegments (backendRoundTrip newIds (handleSaveSegments original)))[i]?
            = some { id := newIds i
                     startTime := s0.startTime
                     endTime := s0.endTime
                     label := if s0.label = "" then "Segment " ++ toString (i + 1)
                              else s0.label
                     color := SEGMENT_COLORS.getD (i % SEGMENT_COLORS.length) "" }) := by
  refine ⟨?_, ?_⟩
  · simp [loadSegments, backendRoundTrip, handleSaveSegments]
  · intro i s0 hi
    unfold loadSegments backendRoundTrip handleSaveSegments
    rw [mapIdx_getElem?, mapIdx_getElem?, List.getElem?_map, hi]
    simp

/-- Witness for C2 amended on a one-segment list: times and label survive the
round trip and the color becomes the palette entry at index 0. -/
theorem roundTrip_amended_witness :
    (loadSegments (backendRoundTrip (fun _ => "srv0")
        (handleSaveSegments
          [{ id := "a", startTime := 0, endTime := 5,
             label := "A", color := "#10B981" }])))[0]?
      = some { id := "srv0", startTime := 0, endTime := 5,
               label := "A", color := "#3B82F6" } :=
  ((roundTrip_amended (fun _ => "srv0")
      [{ id := "a", startTime := 0, endTime := 5,
         label := "A", color := "#10B981" }]).2 0 _ rfl).trans (by decide)
